import Mathlib

/-!
Shallow embedding of the PTE test-automation framework (Python) in Lean 4.

Covered modules:
* `core/retry.py` — delay calculator, `retry` and `retry_with_condition` wrappers,
  string-to-strategy conversion;
* `api/client.py` — header construction and per-verb logging behaviour;
* `config/settings.py` — `ConfigLoader` getters and `TestEnvironment.get_config`;
* `biz/department/user/db_checker.py` — `UserDBChecker.build_query`;
* `core/db_checker.py` — `get_table_count`, `assert_record_exists`,
  `assert_record_not_exists`;
* `core/logger.py` — `LogIdGenerator.generate_logid`.

Python dicts are modelled as insertion-ordered association lists with
Python's assignment/merge semantics; `random.uniform(a, b)` is modelled as
`a + (b - a) * u` for a draw `u ∈ [0, 1]`; exceptions are modelled by
identifiers in `ℕ` together with a membership predicate for the configured
exception tuple.
-/

namespace PTE

/-! ### Python dict model (insertion-ordered association list) -/

/-- Lookup in a Python dict: first entry with the given key. -/
def dictGet {β : Type} : List (String × β) → String → Option β
  | [], _ => none
  | (ka, v) :: t, k => if k = ka then some v else dictGet t k

/-- Python dict assignment `d[k] = v`: update in place if the key exists,
otherwise append at the end (insertion order). -/
def dictSet {β : Type} : List (String × β) → String → β → List (String × β)
  | [], k, v => [(k, v)]
  | (ka, va) :: t, k, v =>
    if ka = k then (ka, v) :: t else (ka, va) :: dictSet t k v

/-- Python `{**d1, **d2}`: start from `d1` and assign every entry of `d2`. -/
def dictMerge {β : Type} (d1 d2 : List (String × β)) : List (String × β) :=
  d2.foldl (fun acc p => dictSet acc p.1 p.2) d1

theorem dictGet_dictSet {β : Type} (d : List (String × β)) (k ka : String) (v : β) :
    dictGet (dictSet d ka v) k = if k = ka then some v else dictGet d k := by
  induction d with
  | nil => simp [dictGet, dictSet]
  | cons hd t ih =>
    obtain ⟨kb, vb⟩ := hd
    by_cases h1 : kb = ka
    · subst h1
      by_cases h2 : k = kb <;> simp [dictGet, dictSet, h2]
    · by_cases h2 : k = kb
      · subst h2
        simp [dictGet, dictSet, h1, Ne.symm h1]
      · simp [dictGet, dictSet, h1, h2, ih]

theorem dictGet_dictMerge_of_absent {β : Type} (d2 d1 : List (String × β)) (k : String)
    (h : dictGet d2 k = none) : dictGet (dictMerge d1 d2) k = dictGet d1 k := by
  induction d2 generalizing d1 with
  | nil => simp [dictMerge]
  | cons hd t ih =>
    obtain ⟨ka, va⟩ := hd
    have hk : ¬ (k = ka) := by
      intro hk
      subst hk
      simp [dictGet] at h
    have ht : dictGet t k = none := by
      simpa [dictGet, hk] using h
    have : dictMerge d1 ((ka, va) :: t) = dictMerge (dictSet d1 ka va) t := by
      simp [dictMerge, List.foldl_cons]
    rw [this, ih _ ht, dictGet_dictSet, if_neg hk]

theorem dictGet_eq_none_of_not_mem_keys {β : Type} (d : List (String × β)) (k : String)
    (h : k ∉ d.map Prod.fst) : dictGet d k = none := by
  induction d with
  | nil => simp [dictGet]
  | cons hd t ih =>
    obtain ⟨ka, va⟩ := hd
    simp only [List.map_cons, List.mem_cons] at h
    push_neg at h
    simp [dictGet, h.1, ih h.2]

theorem dictGet_dictMerge_of_mem {β : Type} (d2 d1 : List (String × β)) (k : String) (v : β)
    (hnd : (d2.map Prod.fst).Nodup) (h : dictGet d2 k = some v) :
    dictGet (dictMerge d1 d2) k = some v := by
  induction d2 generalizing d1 with
  | nil => simp [dictGet] at h
  | cons hd t ih =>
    obtain ⟨ka, va⟩ := hd
    simp only [List.map_cons, List.nodup_cons] at hnd
    have hstep : dictMerge d1 ((ka, va) :: t) = dictMerge (dictSet d1 ka va) t := by
      simp [dictMerge, List.foldl_cons]
    by_cases hk : k = ka
    · subst hk
      have hva : va = v := by simpa [dictGet] using h
      have ht : dictGet t k = none := dictGet_eq_none_of_not_mem_keys t k hnd.1
      rw [hstep, dictGet_dictMerge_of_absent t _ k ht, dictGet_dictSet]
      simp [hva]
    · have ht : dictGet t k = some v := by simpa [dictGet, hk] using h
      rw [hstep]
      exact ih (dictSet d1 ka va) hnd.2 ht

theorem dictMerge_nil {β : Type} (d : List (String × β)) : dictMerge d [] = d := rfl

/-! ### `core/retry.py` — `RetryStrategy` and `RetryDelayCalculator` -/

/-- `RetryStrategy` enumeration (`core/retry.py`). -/
inductive RetryStrategy
  | fixed
  | exponential
  | linear
  | random
  | fibonacci
deriving DecidableEq

/-- Model of Python `random.uniform(a, b)`: the draw is `a + (b - a) * u`
for some `u ∈ [0, 1]`. -/
def pyUniform (a b u : ℚ) : ℚ := a + (b - a) * u

/-- State of the `a, b = b, a + b` loop in `RetryDelayCalculator._fibonacci`,
after `n` iterations starting from `(0, 1)`. -/
def fibPair : ℕ → ℤ × ℤ
  | 0 => (0, 1)
  | n + 1 => ((fibPair n).2, (fibPair n).1 + (fibPair n).2)

/-- `RetryDelayCalculator._fibonacci`: returns `n` when `n <= 1`, otherwise
runs the pair loop for `n - 1` iterations and returns the second component. -/
def pyFibonacci (n : ℤ) : ℤ :=
  if n ≤ 1 then n else (fibPair (n - 1).toNat).2

/-- `RetryDelayCalculator.calculate_delay`.  `uStrategy` is the draw used by
the RANDOM strategy, `uJitter` the draw used by the jitter term (both in
`[0, 1]` for genuine `random.uniform` outputs). -/
def calculate_delay (attempt : ℤ) (base_delay max_delay : ℚ)
    (strategy : RetryStrategy) (jitter : Bool) (jitter_factor : ℚ)
    (uStrategy uJitter : ℚ) : ℚ :=
  let d : ℚ :=
    match strategy with
    | .fixed => base_delay
    | .exponential => base_delay * (2 : ℚ) ^ (attempt - 1)
    | .linear => base_delay * (attempt : ℚ)
    | .random => pyUniform 0 (base_delay * (2 : ℚ) ^ (attempt - 1)) uStrategy
    | .fibonacci => base_delay * ((pyFibonacci attempt : ℤ) : ℚ)
  let dj : ℚ :=
    if jitter then d + pyUniform (-(d * jitter_factor)) (d * jitter_factor) uJitter
    else d
  max 0 (min dj max_delay)

theorem fibPair_eq (n : ℕ) : fibPair n = ((Nat.fib n : ℤ), (Nat.fib (n + 1) : ℤ)) := by
  induction n with
  | zero => simp [fibPair]
  | succ m ih =>
    simp only [fibPair, ih]
    rw [Prod.ext_iff]
    refine ⟨rfl, ?_⟩
    have hfib : Nat.fib (m + 1 + 1) = Nat.fib m + Nat.fib (m + 1) := Nat.fib_add_two
    rw [hfib]
    push_cast
    ring

theorem pyFibonacci_eq (n : ℤ) (hn : 1 ≤ n) : pyFibonacci n = (Nat.fib n.toNat : ℤ) := by
  rcases eq_or_lt_of_le hn with h | h
  · subst h
    simp [pyFibonacci, Nat.fib]
  · have h2 : ¬ n ≤ 1 := by omega
    have h3 : (n - 1).toNat + 1 = n.toNat := by omega
    rw [pyFibonacci, if_neg h2, fibPair_eq, h3]

/-- C1 (amended): for `attempt ≥ 1` and jitter disabled, `calculate_delay`
returns exactly `max 0 (min d max_delay)` where `d` is the claimed
per-strategy value (FIXED: `base_delay`; EXPONENTIAL: `base_delay * 2 ^
(attempt - 1)`; LINEAR: `base_delay * attempt`; FIBONACCI: `base_delay *
F attempt` with `F = Nat.fib`), and for RANDOM — provided `base_delay` and
`max_delay` are nonnegative — every draw `u ∈ [0, 1]` yields a result in
`[0, min (base_delay * 2 ^ (attempt - 1)) max_delay]`. -/
theorem calculate_delay_no_jitter_spec (attempt : ℤ) (base_delay max_delay : ℚ)
    (jitter_factor u1 u2 : ℚ) (hatt : 1 ≤ attempt) :
    calculate_delay attempt base_delay max_delay .fixed false jitter_factor u1 u2
      = max 0 (min base_delay max_delay)
  ∧ calculate_delay attempt base_delay max_delay .exponential false jitter_factor u1 u2
      = max 0 (min (base_delay * (2 : ℚ) ^ (attempt - 1)) max_delay)
  ∧ calculate_delay attempt base_delay max_delay .linear false jitter_factor u1 u2
      = max 0 (min (base_delay * (attempt : ℚ)) max_delay)
  ∧ calculate_delay attempt base_delay max_delay .fibonacci false jitter_factor u1 u2
      = max 0 (min (base_delay * (Nat.fib attempt.toNat : ℚ)) max_delay)
  ∧ (∀ u : ℚ, 0 ≤ u → u ≤ 1 → 0 ≤ base_delay → 0 ≤ max_delay →
      0 ≤ calculate_delay attempt base_delay max_delay .random false jitter_factor u u2
      ∧ calculate_delay attempt base_delay max_delay .random false jitter_factor u u2
          ≤ min (base_delay * (2 : ℚ) ^ (attempt - 1)) max_delay) := by
  refine ⟨rfl, rfl, rfl, ?_, ?_⟩
  · show max 0 (min (base_delay * ((pyFibonacci attempt : ℤ) : ℚ)) max_delay) = _
    rw [pyFibonacci_eq attempt hatt]
    norm_cast
  · intro u hu0 hu1 hb hm
    have hpow : (0 : ℚ) < (2 : ℚ) ^ (attempt - 1) := by positivity
    have hX0 : 0 ≤ base_delay * (2 : ℚ) ^ (attempt - 1) := mul_nonneg hb (le_of_lt hpow)
    have hXu : pyUniform 0 (base_delay * (2 : ℚ) ^ (attempt - 1)) u
        = base_delay * (2 : ℚ) ^ (attempt - 1) * u := by
      unfold pyUniform
      ring
    have hcalc : calculate_delay attempt base_delay max_delay .random false jitter_factor u u2
        = max 0 (min (base_delay * (2 : ℚ) ^ (attempt - 1) * u) max_delay) := by
      show max 0 (min (pyUniform 0 (base_delay * (2 : ℚ) ^ (attempt - 1)) u) max_delay) = _
      rw [hXu]
    rw [hcalc]
    constructor
    · exact le_max_left _ _
    · refine max_le (le_min hX0 hm) (min_le_min ?_ le_rfl)
      exact mul_le_of_le_one_right hX0 hu1

/-- C1 counterexample: at `attempt = 1`, `base_delay = 1`, `max_delay = -1`,
jitter disabled, the draw `u = 0` (a legitimate output of
`random.uniform(0, 1)`) gives result `0`, which does not lie in the claim's
interval `[0, min (1 * 2 ^ 0) (-1)] = [0, -1]`. -/
theorem calculate_delay_random_cex :
    ¬ (0 ≤ calculate_delay 1 1 (-1) .random false (1 / 10) 0 0
       ∧ calculate_delay 1 1 (-1) .random false (1 / 10) 0 0
           ≤ min ((1 : ℚ) * (2 : ℚ) ^ ((1 : ℤ) - 1)) (-1)) := by
  intro hcl
  have h1 : calculate_delay 1 1 (-1) .random false (1 / 10) 0 0 = 0 := by
    show max 0 (min (pyUniform 0 ((1 : ℚ) * (2 : ℚ) ^ ((1 : ℤ) - 1)) 0) (-1)) = 0
    norm_num [pyUniform, min_def, max_def]
  rw [h1] at hcl
  have h2 := hcl.2
  rw [min_def] at h2
  norm_num at h2

/-- C1 witness: the amended statement evaluated at `attempt = 2`,
`base_delay = 3`, `max_delay = 100`, with draw `1/2` for RANDOM. -/
theorem calculate_delay_no_jitter_spec_witness :
    calculate_delay 2 3 100 .fixed false (1 / 10) 0 0 = 3
    ∧ 0 ≤ calculate_delay 2 3 100 .random false (1 / 10) (1 / 2) 0 := by
  have h := calculate_delay_no_jitter_spec 2 3 100 (1 / 10) 0 0 (by norm_num)
  refine ⟨?_, ?_⟩
  · rw [h.1]
    norm_num [min_def, max_def]
  · exact (h.2.2.2.2 (1 / 2) (by norm_num) (by norm_num) (by norm_num) (by norm_num)).1

/-! ### `core/retry.py` — the `retry` and `retry_with_condition` wrappers

An attempt behaviour is `f : ℕ → α ⊕ ℕ` (1-based attempt index): `.inl v`
models the wrapped function returning `v`, `.inr e` models it raising the
exception with identifier `e`.  `retryable e` models membership of that
exception in `config.exceptions`.  `timeoutCfg` is the truthiness of
`config.timeout` and `timeoutHit i` the result of
`check_timeout_condition` before attempt `i`; when the timeout fires the
raised `TimeoutError` (identifier `timeoutErrId`) goes through the same
`except` clauses without invoking the function.  The second component of
the result counts invocations of the wrapped function. -/

/-- Outcome of a wrapper run: a Python return value (with `none` for the
fall-through `return None`) or a raised exception. -/
inductive RunOutcome (α : Type)
  | ret (v : Option α)
  | raised (e : ℕ)
deriving DecidableEq

/-- The `for attempt in range(1, max_attempts + 1)` loop of the `retry`
wrapper.  `fuel` is the number of loop iterations left, `lastExc` the
current value of `last_exception`. -/
def retryGo {α : Type} (retryable : ℕ → Bool) (f : ℕ → α ⊕ ℕ)
    (timeoutCfg : Bool) (timeoutHit : ℕ → Bool) (timeoutErrId : ℕ)
    (maxAttempts : ℕ) : ℕ → Option ℕ → ℕ → RunOutcome α × ℕ
  | _, lastExc, 0 =>
    (match lastExc with
     | none => .ret none
     | some e => .raised e, 0)
  | attempt, lastExc, fuel + 1 =>
    if timeoutCfg && timeoutHit attempt then
      if retryable timeoutErrId then
        if maxAttempts ≤ attempt then (.raised timeoutErrId, 0)
        else
          let r := retryGo retryable f timeoutCfg timeoutHit timeoutErrId maxAttempts
            (attempt + 1) (some timeoutErrId) fuel
          (r.1, r.2)
      else (.raised timeoutErrId, 0)
    else
      match f attempt with
      | .inl v => (.ret (some v), 1)
      | .inr e =>
        if retryable e then
          if maxAttempts ≤ attempt then (.raised e, 1)
          else
            let r := retryGo retryable f timeoutCfg timeoutHit timeoutErrId maxAttempts
              (attempt + 1) (some e) fuel
            (r.1, r.2 + 1)
        else (.raised e, 1)

/-- The `retry` decorator's wrapper: run the loop from attempt 1 with
`last_exception = None` and `max_attempts` iterations available. -/
def retryWrapper {α : Type} (retryable : ℕ → Bool) (f : ℕ → α ⊕ ℕ)
    (timeoutCfg : Bool) (timeoutHit : ℕ → Bool) (timeoutErrId : ℕ)
    (maxAttempts : ℕ) : RunOutcome α × ℕ :=
  retryGo retryable f timeoutCfg timeoutHit timeoutErrId maxAttempts 1 none maxAttempts

/-- The loop of the `retry_with_condition` wrapper: on a normal return the
result is kept only if `cond` accepts it or the attempts are exhausted. -/
def retryCondGo {α : Type} (retryable : ℕ → Bool) (cond : α → Bool) (f : ℕ → α ⊕ ℕ)
    (timeoutCfg : Bool) (timeoutHit : ℕ → Bool) (timeoutErrId : ℕ)
    (maxAttempts : ℕ) : ℕ → Option ℕ → ℕ → RunOutcome α × ℕ
  | _, lastExc, 0 =>
    (match lastExc with
     | none => .ret none
     | some e => .raised e, 0)
  | attempt, lastExc, fuel + 1 =>
    if timeoutCfg && timeoutHit attempt then
      if retryable timeoutErrId then
        if maxAttempts ≤ attempt then (.raised timeoutErrId, 0)
        else
          let r := retryCondGo retryable cond f timeoutCfg timeoutHit timeoutErrId maxAttempts
            (attempt + 1) (some timeoutErrId) fuel
          (r.1, r.2)
      else (.raised timeoutErrId, 0)
    else
      match f attempt with
      | .inl v =>
        if cond v then (.ret (some v), 1)
        else if maxAttempts ≤ attempt then (.ret (some v), 1)
        else
          let r := retryCondGo retryable cond f timeoutCfg timeoutHit timeoutErrId maxAttempts
            (attempt + 1) lastExc fuel
          (r.1, r.2 + 1)
      | .inr e =>
        if retryable e then
          if maxAttempts ≤ attempt then (.raised e, 1)
          else
            let r := retryCondGo retryable cond f timeoutCfg timeoutHit timeoutErrId maxAttempts
              (attempt + 1) (some e) fuel
            (r.1, r.2 + 1)
        else (.raised e, 1)

/-- The `retry_with_condition` decorator's wrapper. -/
def retryCondWrapper {α : Type} (retryable : ℕ → Bool) (cond : α → Bool) (f : ℕ → α ⊕ ℕ)
    (timeoutCfg : Bool) (timeoutHit : ℕ → Bool) (timeoutErrId : ℕ)
    (maxAttempts : ℕ) : RunOutcome α × ℕ :=
  retryCondGo retryable cond f timeoutCfg timeoutHit timeoutErrId maxAttempts 1 none maxAttempts

theorem retryGo_all_retryable {α : Type} (retryable : ℕ → Bool) (f : ℕ → α ⊕ ℕ)
    (timeoutHit : ℕ → Bool) (timeoutErrId : ℕ) (maxAttempts : ℕ) (es : ℕ → ℕ) :
    ∀ fuel attempt lastExc, 1 ≤ fuel → attempt + fuel = maxAttempts + 1 →
    (∀ i, attempt ≤ i → i ≤ maxAttempts → f i = .inr (es i) ∧ retryable (es i) = true) →
    retryGo retryable f false timeoutHit timeoutErrId maxAttempts attempt lastExc fuel
      = (.raised (es maxAttempts), fuel) := by
  intro fuel
  induction fuel with
  | zero => intro attempt lastExc h1 h2 h3; omega
  | succ g ih =>
    intro attempt lastExc _ hsum hf
    have hfa := hf attempt le_rfl (by omega)
    rcases Nat.eq_zero_or_pos g with hg | hg
    · subst hg
      have ha : attempt = maxAttempts := by omega
      subst ha
      simp [retryGo, hfa.1, hfa.2]
    · have hna : ¬ maxAttempts ≤ attempt := by omega
      have hrec := ih (attempt + 1) (some (es attempt)) hg (by omega)
        (fun i hi1 hi2 => hf i (by omega) hi2)
      simp [retryGo, hfa.1, hfa.2, hna, hrec]

theorem retryGo_prefix_ret {α : Type} (retryable : ℕ → Bool) (f : ℕ → α ⊕ ℕ)
    (timeoutHit : ℕ → Bool) (timeoutErrId : ℕ) (maxAttempts k : ℕ) (v : α) :
    ∀ fuel attempt lastExc, attempt ≤ k → k ≤ maxAttempts → k < attempt + fuel →
    (∀ i, attempt ≤ i → i < k → ∃ ei, f i = .inr ei ∧ retryable ei = true) →
    f k = .inl v →
    retryGo retryable f false timeoutHit timeoutErrId maxAttempts attempt lastExc fuel
      = (.ret (some v), k - attempt + 1) := by
  intro fuel
  induction fuel with
  | zero => intro attempt lastExc h1 h2 h3; omega
  | succ g ih =>
    intro attempt lastExc hak hkm hkf hpre hk
    rcases eq_or_lt_of_le hak with he | hlt
    · subst he
      simp [retryGo, hk]
    · obtain ⟨ei, hei, hri⟩ := hpre attempt le_rfl hlt
      have hna : ¬ maxAttempts ≤ attempt := by omega
      have hrec := ih (attempt + 1) (some ei) hlt hkm (by omega)
        (fun i hi1 hi2 => hpre i (by omega) hi2) hk
      have hcount : k - (attempt + 1) + 1 + 1 = k - attempt + 1 := by omega
      simp only [retryGo, hei, hri, hna, Bool.false_and, Bool.false_eq_true, if_false,
        if_true, hrec]
      simp [hcount]

theorem retryGo_prefix_raised {α : Type} (retryable : ℕ → Bool) (f : ℕ → α ⊕ ℕ)
    (timeoutHit : ℕ → Bool) (timeoutErrId : ℕ) (maxAttempts k e : ℕ) :
    ∀ fuel attempt lastExc, attempt ≤ k → k ≤ maxAttempts → k < attempt + fuel →
    (∀ i, attempt ≤ i → i < k → ∃ ei, f i = .inr ei ∧ retryable ei = true) →
    f k = .inr e → retryable e = false →
    retryGo (α := α) retryable f false timeoutHit timeoutErrId maxAttempts attempt lastExc fuel
      = (.raised e, k - attempt + 1) := by
  intro fuel
  induction fuel with
  | zero => intro attempt lastExc h1 h2 h3; omega
  | succ g ih =>
    intro attempt lastExc hak hkm hkf hpre hk hre
    rcases eq_or_lt_of_le hak with he | hlt
    · subst he
      simp [retryGo, hk, hre]
    · obtain ⟨ei, hei, hri⟩ := hpre attempt le_rfl hlt
      have hna : ¬ maxAttempts ≤ attempt := by omega
      have hrec := ih (attempt + 1) (some ei) hlt hkm (by omega)
        (fun i hi1 hi2 => hpre i (by omega) hi2) hk hre
      have hcount : k - (attempt + 1) + 1 + 1 = k - attempt + 1 := by omega
      simp only [retryGo, hei, hri, hna, Bool.false_and, Bool.false_eq_true, if_false,
        if_true, hrec]
      simp [hcount]

/-- C2: with no timeout configured, the `retry` wrapper (a) invokes the
function exactly `max_attempts` times and re-raises the final attempt's
exception when every invocation raises a configured (retryable) exception,
(b) propagates a non-configured exception immediately after exactly `k`
invocations, and (c) returns a normal result unchanged after exactly `k`
invocations. -/
theorem retry_wrapper_spec {α : Type} (retryable : ℕ → Bool) (f : ℕ → α ⊕ ℕ)
    (timeoutHit : ℕ → Bool) (timeoutErrId : ℕ) (maxAttempts : ℕ)
    (hmax : 1 ≤ maxAttempts) :
    (∀ es : ℕ → ℕ,
        (∀ i, 1 ≤ i → i ≤ maxAttempts → f i = .inr (es i) ∧ retryable (es i) = true) →
        retryWrapper retryable f false timeoutHit timeoutErrId maxAttempts
          = (.raised (es maxAttempts), maxAttempts))
  ∧ (∀ k e, 1 ≤ k → k ≤ maxAttempts →
        (∀ i, 1 ≤ i → i < k → ∃ ei, f i = .inr ei ∧ retryable ei = true) →
        f k = .inr e → retryable e = false →
        retryWrapper retryable f false timeoutHit timeoutErrId maxAttempts
          = (.raised e, k))
  ∧ (∀ k v, 1 ≤ k → k ≤ maxAttempts →
        (∀ i, 1 ≤ i → i < k → ∃ ei, f i = .inr ei ∧ retryable ei = true) →
        f k = .inl v →
        retryWrapper retryable f false timeoutHit timeoutErrId maxAttempts
          = (.ret (some v), k)) := by
  refine ⟨?_, ?_, ?_⟩
  · intro es hf
    exact retryGo_all_retryable retryable f timeoutHit timeoutErrId maxAttempts es
      maxAttempts 1 none hmax (by omega) hf
  · intro k e hk1 hkm hpre hfk hre
    have h := retryGo_prefix_raised retryable f timeoutHit timeoutErrId maxAttempts k e
      maxAttempts 1 none hk1 hkm (by omega) (fun i hi1 hi2 => hpre i hi1 hi2) hfk hre
    have hc : k - 1 + 1 = k := by omega
    rw [retryWrapper, h, hc]
  · intro k v hk1 hkm hpre hfk
    have h := retryGo_prefix_ret retryable f timeoutHit timeoutErrId maxAttempts k v
      maxAttempts 1 none hk1 hkm (by omega) (fun i hi1 hi2 => hpre i hi1 hi2) hfk
    have hc : k - 1 + 1 = k := by omega
    rw [retryWrapper, h, hc]

/-- C2 witness: with `max_attempts = 3`, two retryable failures then a
normal result 42 on attempt 3; the wrapper returns 42 after exactly 3
invocations. -/
theorem retry_wrapper_spec_witness :
    retryWrapper (fun e => e == 0) (fun i => if i < 3 then .inr 0 else .inl (42 : ℕ))
      false (fun _ => false) 7 3 = (.ret (some 42), 3) := by
  refine (retry_wrapper_spec (fun e => e == 0)
    (fun i => if i < 3 then .inr 0 else .inl (42 : ℕ))
    (fun _ => false) 7 3 (by norm_num)).2.2 3 42 (by norm_num) le_rfl ?_ ?_
  · intro i hi1 hi2
    exact ⟨0, by simp [hi2], rfl⟩
  · norm_num

theorem retryCondGo_all_unsat {α : Type} (retryable : ℕ → Bool) (cond : α → Bool)
    (f : ℕ → α ⊕ ℕ) (timeoutHit : ℕ → Bool) (timeoutErrId : ℕ) (maxAttempts : ℕ)
    (vs : ℕ → α) :
    ∀ fuel attempt lastExc, 1 ≤ fuel → attempt + fuel = maxAttempts + 1 →
    (∀ i, attempt ≤ i → i ≤ maxAttempts → f i = .inl (vs i) ∧ cond (vs i) = false) →
    retryCondGo retryable cond f false timeoutHit timeoutErrId maxAttempts attempt lastExc fuel
      = (.ret (some (vs maxAttempts)), fuel) := by
  intro fuel
  induction fuel with
  | zero => intro attempt lastExc h1 h2 h3; omega
  | succ g ih =>
    intro attempt lastExc _ hsum hf
    have hfa := hf attempt le_rfl (by omega)
    rcases Nat.eq_zero_or_pos g with hg | hg
    · subst hg
      have ha : attempt = maxAttempts := by omega
      subst ha
      simp [retryCondGo, hfa.1, hfa.2]
    · have hna : ¬ maxAttempts ≤ attempt := by omega
      have hrec := ih (attempt + 1) lastExc hg (by omega)
        (fun i hi1 hi2 => hf i (by omega) hi2)
      simp [retryCondGo, hfa.1, hfa.2, hna, hrec]

theorem retryCondGo_prefix_sat {α : Type} (retryable : ℕ → Bool) (cond : α → Bool)
    (f : ℕ → α ⊕ ℕ) (timeoutHit : ℕ → Bool) (timeoutErrId : ℕ) (maxAttempts k : ℕ)
    (v : α) :
    ∀ fuel attempt lastExc, attempt ≤ k → k ≤ maxAttempts → k < attempt + fuel →
    (∀ i, attempt ≤ i → i < k → ∃ vi, f i = .inl vi ∧ cond vi = false) →
    f k = .inl v → cond v = true →
    retryCondGo retryable cond f false timeoutHit timeoutErrId maxAttempts attempt lastExc fuel
      = (.ret (some v), k - attempt + 1) := by
  intro fuel
  induction fuel with
  | zero => intro attempt lastExc h1 h2 h3; omega
  | succ g ih =>
    intro attempt lastExc hak hkm hkf hpre hk hcv
    rcases eq_or_lt_of_le hak with he | hlt
    · subst he
      simp [retryCondGo, hk, hcv]
    · obtain ⟨vi, hvi, hci⟩ := hpre attempt le_rfl hlt
      have hna : ¬ maxAttempts ≤ attempt := by omega
      have hrec := ih (attempt + 1) lastExc hlt hkm (by omega)
        (fun i hi1 hi2 => hpre i (by omega) hi2) hk hcv
      have hcount : k - (attempt + 1) + 1 + 1 = k - attempt + 1 := by omega
      simp only [retryCondGo, hvi, hci, hna, Bool.false_and, Bool.false_eq_true, if_false,
        if_true, hrec]
      simp [hcount]

/-- C3: with no timeout configured and a function that never raises, the
`retry_with_condition` wrapper (a) invokes the function exactly
`max_attempts` times and returns the final attempt's result without raising
when no result satisfies the condition, and (b) returns the result of the
first condition-satisfying attempt `k` after exactly `k` invocations. -/
theorem retry_cond_wrapper_spec {α : Type} (retryable : ℕ → Bool) (cond : α → Bool)
    (f : ℕ → α ⊕ ℕ) (timeoutHit : ℕ → Bool) (timeoutErrId : ℕ) (maxAttempts : ℕ)
    (hmax : 1 ≤ maxAttempts) :
    (∀ vs : ℕ → α,
        (∀ i, 1 ≤ i → i ≤ maxAttempts → f i = .inl (vs i) ∧ cond (vs i) = false) →
        retryCondWrapper retryable cond f false timeoutHit timeoutErrId maxAttempts
          = (.ret (some (vs maxAttempts)), maxAttempts))
  ∧ (∀ k v, 1 ≤ k → k ≤ maxAttempts →
        (∀ i, 1 ≤ i → i < k → ∃ vi, f i = .inl vi ∧ cond vi = false) →
        f k = .inl v → cond v = true →
        retryCondWrapper retryable cond f false timeoutHit timeoutErrId maxAttempts
          = (.ret (some v), k)) := by
  refine ⟨?_, ?_⟩
  · intro vs hf
    exact retryCondGo_all_unsat retryable cond f timeoutHit timeoutErrId maxAttempts vs
      maxAttempts 1 none hmax (by omega) hf
  · intro k v hk1 hkm hpre hfk hcv
    have h := retryCondGo_prefix_sat retryable cond f timeoutHit timeoutErrId maxAttempts k v
      maxAttempts 1 none hk1 hkm (by omega) (fun i hi1 hi2 => hpre i hi1 hi2) hfk hcv
    have hc : k - 1 + 1 = k := by omega
    rw [retryCondWrapper, h, hc]

/-- C3 witness: with `max_attempts = 3`, results 1, 2, 3 and condition
`result == 2`, the wrapper returns 2 after exactly 2 invocations. -/
theorem retry_cond_wrapper_spec_witness :
    retryCondWrapper (fun _ => true) (fun v => v == 2) (fun i => .inl (i : ℕ))
      false (fun _ => false) 7 3 = (.ret (some 2), 2) := by
  refine (retry_cond_wrapper_spec (fun _ => true) (fun v => v == 2) (fun i => .inl (i : ℕ))
    (fun _ => false) 7 3 (by norm_num)).2 2 2 (by norm_num) (by norm_num) ?_ rfl rfl
  intro i hi1 hi2
  have : i = 1 := by omega
  subst this
  exact ⟨1, rfl, rfl⟩

/-! ### `core/retry.py` — string-to-strategy conversion (shared by `retry`
and `retry_with_condition`) -/

/-- Model of Python `str.lower()`: lowercase each character. -/
def pyLower (s : String) : String := String.mk (s.data.map Char.toLower)

/-- The `RetryStrategy(value)` enum lookup by value: `none` models the
`ValueError` raised for an unknown value. -/
def strategyOfString (s : String) : Option RetryStrategy :=
  if s = "fixed" then some .fixed
  else if s = "exponential" then some .exponential
  else if s = "linear" then some .linear
  else if s = "random" then some .random
  else if s = "fibonacci" then some .fibonacci
  else none

/-- The `strategy` argument of the decorators: an enum member or a string. -/
inductive StrategyArg
  | enumArg (s : RetryStrategy)
  | strArg (s : String)

/-- The conversion block at the top of both `retry` and
`retry_with_condition`: a string is lowercased and looked up;
a `ValueError` falls back to EXPONENTIAL. -/
def convert_strategy : StrategyArg → RetryStrategy
  | .enumArg s => s
  | .strArg s =>
    match strategyOfString (pyLower s) with
    | some st => st
    | none => .exponential

/-- C10: any string not naming a strategy after lowercasing is accepted and
treated as EXPONENTIAL by both decorators' conversion step; a string naming
a strategy yields the corresponding enum value. -/
theorem convert_strategy_spec (s : String) :
    (pyLower s ≠ "fixed" → pyLower s ≠ "exponential" → pyLower s ≠ "linear" →
      pyLower s ≠ "random" → pyLower s ≠ "fibonacci" →
      convert_strategy (.strArg s) = .exponential)
  ∧ (pyLower s = "fixed" → convert_strategy (.strArg s) = .fixed)
  ∧ (pyLower s = "exponential" → convert_strategy (.strArg s) = .exponential)
  ∧ (pyLower s = "linear" → convert_strategy (.strArg s) = .linear)
  ∧ (pyLower s = "random" → convert_strategy (.strArg s) = .random)
  ∧ (pyLower s = "fibonacci" → convert_strategy (.strArg s) = .fibonacci) := by
  refine ⟨?_, ?_, ?_, ?_, ?_, ?_⟩ <;>
    intro h <;>
    simp [convert_strategy, strategyOfString, h]
  intro h2 h3 h4 h5
  simp [h2, h3, h4, h5]

/-- C10 witness: `"FIXED"` converts to FIXED and `"bogus"` to EXPONENTIAL. -/
theorem convert_strategy_spec_witness :
    convert_strategy (.strArg "FIXED") = .fixed
    ∧ convert_strategy (.strArg "bogus") = .exponential := by
  constructor
  · exact (convert_strategy_spec "FIXED").2.1 (by decide)
  · exact (convert_strategy_spec "bogus").1 (by decide) (by decide) (by decide)
      (by decide) (by decide)

/-! ### `api/client.py` — per-verb logging behaviour

Each verb method is modelled by the list of log records it emits, as a
function of whether a `logger` argument was supplied and whether the HTTP
request succeeded (`requestOk`).  On failure the method re-raises after
logging; `get` falls back to the static `Log` class when no logger is
supplied, while the other four verbs log only when a logger is supplied. -/

/-- Where a log record is sent. -/
inductive LogSink
  | suppliedLogger
  | staticLog
deriving DecidableEq

/-- One emitted log record: its kind (`"api_call"` or `"error"`) and sink. -/
structure LogRecord where
  kind : String
  sink : LogSink
deriving DecidableEq

/-- `APIClient.get`: logs `api_call` via the logger if supplied, else via
the static `Log` class; on exception logs `error` likewise and re-raises. -/
def get_logs (loggerSupplied requestOk : Bool) : List LogRecord :=
  if requestOk then
    if loggerSupplied then [⟨"api_call", .suppliedLogger⟩]
    else [⟨"api_call", .staticLog⟩]
  else
    if loggerSupplied then [⟨"error", .suppliedLogger⟩]
    else [⟨"error", .staticLog⟩]

/-- `APIClient.post`: logs only `if logger:` — no static fallback. -/
def post_logs (loggerSupplied requestOk : Bool) : List LogRecord :=
  if requestOk then
    if loggerSupplied then [⟨"api_call", .suppliedLogger⟩] else []
  else
    if loggerSupplied then [⟨"error", .suppliedLogger⟩] else []

/-- `APIClient.put`: logs only `if logger:` — no static fallback. -/
def put_logs (loggerSupplied requestOk : Bool) : List LogRecord :=
  if requestOk then
    if loggerSupplied then [⟨"api_call", .suppliedLogger⟩] else []
  else
    if loggerSupplied then [⟨"error", .suppliedLogger⟩] else []

/-- `APIClient.delete`: logs only `if logger:` — no static fallback. -/
def delete_logs (loggerSupplied requestOk : Bool) : List LogRecord :=
  if requestOk then
    if loggerSupplied then [⟨"api_call", .suppliedLogger⟩] else []
  else
    if loggerSupplied then [⟨"error", .suppliedLogger⟩] else []

/-- `APIClient.patch`: logs only `if logger:` — no static fallback. -/
def patch_logs (loggerSupplied requestOk : Bool) : List LogRecord :=
  if requestOk then
    if loggerSupplied then [⟨"api_call", .suppliedLogger⟩] else []
  else
    if loggerSupplied then [⟨"error", .suppliedLogger⟩] else []

/-- C4 counterexample: a successful `post` with no logger supplied emits no
`api_call` record at all, contradicting the claim that every verb logs every
successful request. -/
theorem post_no_logger_cex :
    ¬ ∃ r ∈ post_logs false true, r.kind = "api_call" := by
  decide

/-- C4 (amended): a successful `get` always emits an `api_call` record, via
the supplied logger when one is passed and via the static `Log` class
otherwise; `post`, `put`, `delete` and `patch` emit an `api_call` record
exactly when a logger is supplied. -/
theorem api_client_logging_spec (loggerSupplied : Bool) :
    (∃ r ∈ get_logs loggerSupplied true, r.kind = "api_call"
        ∧ r.sink = (if loggerSupplied then .suppliedLogger else .staticLog))
  ∧ ((∃ r ∈ post_logs loggerSupplied true, r.kind = "api_call") ↔ loggerSupplied = true)
  ∧ ((∃ r ∈ put_logs loggerSupplied true, r.kind = "api_call") ↔ loggerSupplied = true)
  ∧ ((∃ r ∈ delete_logs loggerSupplied true, r.kind = "api_call") ↔ loggerSupplied = true)
  ∧ ((∃ r ∈ patch_logs loggerSupplied true, r.kind = "api_call") ↔ loggerSupplied = true) := by
  cases loggerSupplied <;> decide

/-! ### `api/client.py` — header construction in `APIClient.__init__` and
the per-verb `final_headers` merge -/

/-- `APIClient.__init__` header computation: the environment's default
headers get `logId` assigned, then custom constructor headers (when truthy,
i.e. non-empty) are merged on top via `{**self.default_headers, **headers}`. -/
def initHeaders (defaultHeaders : List (String × String)) (logid : String)
    (custom : Option (List (String × String))) : List (String × String) :=
  let d := dictSet defaultHeaders "logId" logid
  match custom with
  | none => d
  | some h => if h = [] then d else dictMerge d h

/-- Per-verb `final_headers = {**self.headers, **(headers or {})}`. -/
def finalHeaders (selfHeaders : List (String × String))
    (percall : Option (List (String × String))) : List (String × String) :=
  dictMerge selfHeaders (percall.getD [])

/-- C5 counterexample: a client constructed with custom headers containing
`logId` keeps the custom value, not the client's own logid. -/
theorem client_logid_header_cex :
    dictGet (initHeaders [] "aaaa" (some [("logId", "bbbb")])) "logId"
      ≠ some "aaaa" := by
  decide

/-- C5 (amended): provided the constructor headers argument does not itself
contain `logId`, the client's headers map `logId` to the client's logid, and
every verb call whose per-call headers do not contain `logId` sends headers
that still map `logId` to that logid. -/
theorem client_logid_header_spec (defaultHeaders : List (String × String))
    (logid : String) (custom percall : Option (List (String × String)))
    (hc : ∀ h, custom = some h → dictGet h "logId" = none)
    (hp : ∀ p, percall = some p → dictGet p "logId" = none) :
    dictGet (initHeaders defaultHeaders logid custom) "logId" = some logid
  ∧ dictGet (finalHeaders (initHeaders defaultHeaders logid custom) percall) "logId"
      = some logid := by
  have hbase : dictGet (dictSet defaultHeaders "logId" logid) "logId" = some logid := by
    rw [dictGet_dictSet]
    simp
  have hinit : dictGet (initHeaders defaultHeaders logid custom) "logId" = some logid := by
    match custom with
    | none => exact hbase
    | some h =>
      by_cases hemp : h = []
      · simp [initHeaders, hemp, hbase]
      · have habs := hc h rfl
        simp only [initHeaders, if_neg hemp]
        rw [dictGet_dictMerge_of_absent h _ "logId" habs]
        exact hbase
  refine ⟨hinit, ?_⟩
  match percall with
  | none =>
    rw [finalHeaders]
    simpa [dictMerge_nil] using hinit
  | some p =>
    have habs := hp p rfl
    rw [finalHeaders]
    simpa [dictGet_dictMerge_of_absent p _ "logId" habs] using hinit

/-- C5 witness: the amended statement at a concrete client. -/
theorem client_logid_header_spec_witness :
    dictGet (initHeaders [("Accept", "json")] "lid01" (some [("X", "1")])) "logId"
      = some "lid01"
  ∧ dictGet (finalHeaders (initHeaders [("Accept", "json")] "lid01" (some [("X", "1")]))
      (some [("Y", "2")])) "logId" = some "lid01" := by
  exact client_logid_header_spec [("Accept", "json")] "lid01" (some [("X", "1")])
    (some [("Y", "2")])
    (fun h hh => by cases hh; rfl)
    (fun p hp => by cases hp; rfl)

/-! ### `config/settings.py` — `ConfigLoader` getters and
`TestEnvironment.get_config` -/

/-- One entry of the IDC file's `environments` mapping: optional own
`timeout`, `retry_count` and `headers` (`none` models a missing YAML key). -/
structure EnvEntry where
  timeout : Option ℤ
  retry_count : Option ℤ
  headers : Option (List (String × String))

/-- The loaded IDC YAML configuration (`self.idc_config`): optional
top-level keys, each `.get` default applied by the corresponding getter. -/
structure IdcConfig where
  environments : List (String × EnvEntry)
  host : Option String
  timeout : Option ℤ
  retry_count : Option ℤ
  default_headers : Option (List (String × String))

/-- `ConfigLoader.get_host`: `idc_config.get("host", "")`. -/
def get_host (c : IdcConfig) : String := c.host.getD ""

/-- `ConfigLoader.get_default_timeout`: `idc_config.get("timeout", 30)`. -/
def get_default_timeout (c : IdcConfig) : ℤ := c.timeout.getD 30

/-- `ConfigLoader.get_default_retry_count`: `idc_config.get("retry_count", 3)`. -/
def get_default_retry_count (c : IdcConfig) : ℤ := c.retry_count.getD 3

/-- `ConfigLoader.get_default_headers`: `idc_config.get("default_headers", {})`. -/
def get_default_headers (c : IdcConfig) : List (String × String) :=
  c.default_headers.getD []

/-- The environment configuration returned by `TestEnvironment.get_config`. -/
structure ResolvedConfig where
  host : String
  timeout : ℤ
  retry_count : ℤ
  headers : List (String × String)

/-- `TestEnvironment.get_config`: error on an unknown environment
(`ValueError`), otherwise the environment's entry with host overwritten by
the IDC host, missing timeout/retry_count filled from the IDC defaults, and
headers merged `{**default_headers, **env_headers}`. -/
def get_config (c : IdcConfig) (env : String) : Except String ResolvedConfig :=
  match dictGet c.environments env with
  | none => .error ("Unknown environment: " ++ env)
  | some e =>
    .ok { host := get_host c
          timeout := e.timeout.getD (get_default_timeout c)
          retry_count := e.retry_count.getD (get_default_retry_count c)
          headers := dictMerge (get_default_headers c) (e.headers.getD []) }

/-- C6: `get_config` raises exactly on unknown environment names; for a
known environment the result's host is the IDC host, timeout and
retry_count are the environment's own values when set and the IDC defaults
otherwise, and the headers are the IDC default headers overridden
key-by-key by the environment's headers (stated for duplicate-free
environment header mappings, which YAML mappings always are). -/
theorem get_config_spec (c : IdcConfig) (env : String) :
    ((∃ msg, get_config c env = .error msg) ↔ dictGet c.environments env = none)
  ∧ (∀ e, dictGet c.environments env = some e →
      ∃ r, get_config c env = .ok r
        ∧ r.host = get_host c
        ∧ r.timeout = (match e.timeout with
            | some t => t
            | none => get_default_timeout c)
        ∧ r.retry_count = (match e.retry_count with
            | some n => n
            | none => get_default_retry_count c)
        ∧ (((e.headers.getD []).map Prod.fst).Nodup →
            ∀ k, dictGet r.headers k = (match dictGet (e.headers.getD []) k with
              | some v => some v
              | none => dictGet (get_default_headers c) k))) := by
  constructor
  · constructor
    · intro ⟨msg, hmsg⟩
      match he : dictGet c.environments env with
      | none => rfl
      | some e =>
        rw [get_config, he] at hmsg
        exact absurd hmsg (by simp)
    · intro he
      exact ⟨"Unknown environment: " ++ env, by rw [get_config, he]⟩
  · intro e he
    refine ⟨_, by rw [get_config, he], rfl, ?_, ?_, ?_⟩
    · cases e.timeout <;> rfl
    · cases e.retry_count <;> rfl
    · intro hnd k
      match hk : dictGet (e.headers.getD []) k with
      | some v =>
        exact dictGet_dictMerge_of_mem (e.headers.getD []) (get_default_headers c) k v hnd hk
      | none =>
        exact dictGet_dictMerge_of_absent (e.headers.getD []) (get_default_headers c) k hk

/-- C6 witness: a concrete IDC configuration with one environment that sets
its own retry_count and one header, inheriting timeout and a second header
from the IDC level. -/
theorem get_config_spec_witness :
    ∃ r, get_config
        { environments := [("dev", { timeout := none, retry_count := some 5,
                                     headers := some [("A", "1")] })],
          host := some "http://h", timeout := some 10, retry_count := none,
          default_headers := some [("A", "0"), ("B", "2")] } "dev" = .ok r
      ∧ r.timeout = 10 ∧ r.retry_count = 5
      ∧ dictGet r.headers "A" = some "1" ∧ dictGet r.headers "B" = some "2" := by
  obtain ⟨r, hr, hhost, htime, hretry, hhead⟩ :=
    (get_config_spec
      { environments := [("dev", { timeout := none, retry_count := some 5,
                                   headers := some [("A", "1")] })],
        host := some "http://h", timeout := some 10, retry_count := none,
        default_headers := some [("A", "0"), ("B", "2")] } "dev").2
      { timeout := none, retry_count := some 5, headers := some [("A", "1")] }
      (by rfl)
  refine ⟨r, hr, by simpa using htime, by simpa using hretry, ?_, ?_⟩
  · rw [hhead (by decide) "A"]
    rfl
  · rw [hhead (by decide) "B"]
    rfl

/-! ### `biz/department/user/db_checker.py` — `UserDBChecker.build_query` -/

/-- A WHERE-condition value: the code distinguishes `isinstance(value, str)`
(quoted) from other values (rendered bare; modelled by integers). -/
inductive SqlVal
  | vstr (s : String)
  | vint (n : ℤ)
deriving DecidableEq

/-- Rendering of one condition value in `build_query`: strings are wrapped
in single quotes, other values use their plain `str()` form. -/
def renderVal : SqlVal → String
  | .vstr s => "\x27" ++ s ++ "\x27"
  | .vint n => toString n

/-- The `' AND '.join(where_clauses)` of `build_query`. -/
def whereClause (wc : List (String × SqlVal)) : String :=
  String.intercalate " AND " (wc.map fun p => p.1 ++ " = " ++ renderVal p.2)

/-- `UserDBChecker.build_query`: SELECT/FROM, then WHERE when the conditions
dict is truthy, then ORDER BY / LIMIT / OFFSET when each argument is truthy. -/
def build_query (table_name fields : String) (where_conditions : List (String × SqlVal))
    (order_by limit offset : String) : String :=
  let sql := "SELECT " ++ fields ++ " FROM " ++ table_name
  let sql := if where_conditions = [] then sql
             else sql ++ " WHERE " ++ whereClause where_conditions
  let sql := if order_by = "" then sql else sql ++ " ORDER BY " ++ order_by
  let sql := if limit = "" then sql else sql ++ " LIMIT " ++ limit
  let sql := if offset = "" then sql else sql ++ " OFFSET " ++ offset
  sql

/-- The exact string format the claim describes, for a non-empty
conditions dictionary. -/
def build_query_claimed (table_name fields : String)
    (where_conditions : List (String × SqlVal)) (order_by limit offset : String) : String :=
  "SELECT " ++ fields ++ " FROM " ++ table_name ++ " WHERE "
    ++ whereClause where_conditions
    ++ (if order_by = "" then "" else " ORDER BY " ++ order_by)
    ++ (if limit = "" then "" else " LIMIT " ++ limit)
    ++ (if offset = "" then "" else " OFFSET " ++ offset)

/-- C7: for a non-empty conditions dictionary, `build_query` returns exactly
the claimed string: `SELECT {fields} FROM {table}` plus the ` AND `-joined
conditions (strings quoted, other values bare, dict order preserved) plus
the ORDER BY / LIMIT / OFFSET suffixes exactly when each argument is
non-empty. -/
theorem build_query_spec (table_name fields : String)
    (where_conditions : List (String × SqlVal)) (order_by limit offset : String)
    (h : where_conditions ≠ []) :
    build_query table_name fields where_conditions order_by limit offset
      = build_query_claimed table_name fields where_conditions order_by limit offset := by
  simp only [build_query, build_query_claimed, if_neg h]
  split_ifs <;> simp [String.append_assoc]

/-- C7 witness: a concrete query with a string and an integer condition and
a LIMIT. -/
theorem build_query_spec_witness :
    build_query "users" "*" [("id", .vint 5), ("name", .vstr "bob")] "" "10" ""
      = build_query_claimed "users" "*" [("id", .vint 5), ("name", .vstr "bob")] "" "10" "" :=
  build_query_spec "users" "*" [("id", .vint 5), ("name", .vstr "bob")] "" "10" ""
    (by decide)

/-! ### `core/db_checker.py` — `get_table_count` and the record-existence
assertions.  The database is modelled as an oracle mapping the executed SQL
string to the list of result rows; a row maps column names to values. -/

/-- `DatabaseConfig` (`core/db_checker.py`), connection-relevant fields. -/
structure DatabaseConfig where
  host : String
  port : ℤ
  username : String
  password : String
  database : String
  charset : String

/-- `BaseDBChecker` state: the configuration and the (unused) `connection`
attribute set to `None` in `__init__`. -/
structure BaseDBChecker where
  db_config : DatabaseConfig
  connection : Option Unit

/-- The COUNT query string built by `get_table_count`. -/
def countSql (table_name where_clause : String) : String :=
  let sql := "SELECT COUNT(*) as count FROM " ++ table_name
  if where_clause = "" then sql else sql ++ " WHERE " ++ where_clause

/-- `BaseDBChecker.get_table_count`: `result[0]["count"] if result else 0`. -/
def get_table_count (db : String → List (String → ℤ)) (c : BaseDBChecker)
    (table_name where_clause : String) : ℤ :=
  match db (countSql table_name where_clause) with
  | [] => 0
  | row :: _ => row "count"

/-- `BaseDBChecker.assert_record_exists`: raise `AssertionError` when the
count is 0; the checker is returned unchanged (the method touches no
attribute). -/
def assert_record_exists (db : String → List (String → ℤ)) (c : BaseDBChecker)
    (table_name where_clause : String) (message : Option String) :
    Except String Unit × BaseDBChecker :=
  let count := get_table_count db c table_name where_clause
  if count = 0 then
    (.error (message.getD ("No record found in table \x27" ++ table_name
      ++ "\x27 with condition: " ++ where_clause)), c)
  else (.ok (), c)

/-- `BaseDBChecker.assert_record_not_exists`: raise `AssertionError` when
the count is positive; the checker is returned unchanged. -/
def assert_record_not_exists (db : String → List (String → ℤ)) (c : BaseDBChecker)
    (table_name where_clause : String) (message : Option String) :
    Except String Unit × BaseDBChecker :=
  let count := get_table_count db c table_name where_clause
  if 0 < count then
    (.error (message.getD ("Record should not exist in table \x27" ++ table_name
      ++ "\x27 with condition: " ++ where_clause)), c)
  else (.ok (), c)

/-- C8: `assert_record_exists` raises iff the count is 0,
`assert_record_not_exists` raises iff the count is positive,
`get_table_count` returns 0 when the COUNT query yields no rows, and
neither assertion changes the checker. -/
theorem db_checker_assert_spec (db : String → List (String → ℤ)) (c : BaseDBChecker)
    (table_name where_clause : String) (message : Option String) :
    ((∃ msg, (assert_record_exists db c table_name where_clause message).1 = .error msg)
        ↔ get_table_count db c table_name where_clause = 0)
  ∧ ((∃ msg, (assert_record_not_exists db c table_name where_clause message).1 = .error msg)
        ↔ 0 < get_table_count db c table_name where_clause)
  ∧ (db (countSql table_name where_clause) = [] →
        get_table_count db c table_name where_clause = 0)
  ∧ (assert_record_exists db c table_name where_clause message).2 = c
  ∧ (assert_record_not_exists db c table_name where_clause message).2 = c := by
  refine ⟨?_, ?_, ?_, ?_, ?_⟩
  · by_cases hc : get_table_count db c table_name where_clause = 0 <;>
      simp [assert_record_exists, hc]
  · by_cases hc : 0 < get_table_count db c table_name where_clause <;>
      simp [assert_record_not_exists, hc]
  · intro hdb
    rw [get_table_count, hdb]
  · simp only [assert_record_exists]
    split <;> rfl
  · simp only [assert_record_not_exists]
    split <;> rfl

/-- C8 witness: an empty database yields count 0, so `assert_record_exists`
raises there. -/
theorem db_checker_assert_spec_witness :
    get_table_count (fun _ => []) ⟨⟨"h", 3306, "root", "", "db", "utf8mb4"⟩, none⟩
      "users" "" = 0
    ∧ ∃ msg, (assert_record_exists (fun _ => [])
        ⟨⟨"h", 3306, "root", "", "db", "utf8mb4"⟩, none⟩ "users" "" none).1
        = .error msg := by
  have h := db_checker_assert_spec (fun _ => [])
    ⟨⟨"h", 3306, "root", "", "db", "utf8mb4"⟩, none⟩ "users" "" none
  exact ⟨h.2.2.1 rfl, h.1.mpr (h.2.2.1 rfl)⟩

/-! ### `core/logger.py` — `LogIdGenerator.generate_logid`

`hashlib.md5(...).hexdigest()` is a standard-library call: the digest is
modelled as an uninterpreted function producing a 128-bit value, and
`hexdigest` as its 32-nibble lowercase-hex rendering. -/

/-- One hex digit (`0`–`9`, `a`–`f`) for a nibble value. -/
def hexChar (k : ℕ) : Char :=
  if k < 10 then Char.ofNat (48 + k) else Char.ofNat (87 + k)

/-- `hexdigest()` of a 128-bit digest: 32 hex characters, most significant
nibble first. -/
def hexDigest (n : ℕ) : String :=
  String.mk ((List.range 32).map fun i => hexChar (n / 16 ^ (31 - i) % 16))

/-- `LogIdGenerator.generate_logid`: concatenate the timestamp, random
string and uuid fragment, hash, render in hex and lowercase. -/
def generate_logid (md5Hash : String → ℕ) (timestamp randomStr uniqueId : String) : String :=
  pyLower (hexDigest (md5Hash (timestamp ++ randomStr ++ uniqueId) % 2 ^ 128))

theorem hexChar_toLower_mem : ∀ k, k < 16 → Char.toLower (hexChar k) ∈ "0123456789abcdef".data := by
  decide

/-- C9: `generate_logid` always returns a string of exactly 32 characters,
each a lowercase hexadecimal digit. -/
theorem generate_logid_spec (md5Hash : String → ℕ) (timestamp randomStr uniqueId : String) :
    (generate_logid md5Hash timestamp randomStr uniqueId).length = 32
  ∧ ∀ ch ∈ (generate_logid md5Hash timestamp randomStr uniqueId).data,
      ch ∈ "0123456789abcdef".data := by
  constructor
  · simp [generate_logid, pyLower, hexDigest, String.length]
  · intro ch hch
    simp only [generate_logid, pyLower, hexDigest, List.mem_map] at hch
    obtain ⟨cb, ⟨i, hi, rfl⟩, rfl⟩ := hch
    exact hexChar_toLower_mem _ (Nat.mod_lt _ (by norm_num))

/-- C9 witness: the all-zero digest yields a 32-character logid whose first
character is a lowercase hex digit. -/
theorem generate_logid_spec_witness :
    (generate_logid (fun _ => 0) "" "" "").length = 32
    ∧ '0' ∈ "0123456789abcdef".data := by
  have h := generate_logid_spec (fun _ => 0) "" "" ""
  refine ⟨h.1, h.2 '0' ?_⟩
  decide

end PTE
